import Mathlib

/-!
Verification development for the planar-subdivision / trapezoid-map
repository (`notebooks/modules/data_structures`): a shallow embedding of
`dcel.py`, `objects.py` and `vertical_decomposition.py`, followed by
theorems settling the frozen claims about the specification.

Mutable Python objects are represented by arenas: a total map `Nat → record`
together with an allocation size; object identity (`is`) becomes index
equality.  The repository's geometry module is not among the sources, so
the orientation predicates, points and segments are modelled from the
spec's glossary (each such definition is marked `Modelled from the spec`).
Animation bookkeeping (`_point_sequence`, `PointReference`) is pure
visualisation state that never feeds back into the data structures and is
omitted.
-/

namespace GeoNb

/-- Modelled from the spec: an immutable two-dimensional point with exact
coordinates. -/
structure Pt where
  x : Int
  y : Int
deriving DecidableEq, Repr

instance : Inhabited Pt := ⟨⟨0, 0⟩⟩

/-- Modelled from the spec: result of the horizontal-orientation predicate -
the position of a point relative to the vertical line through another
point, ties on the x-coordinate resolved by the symbolic shear
transform x + eps * y; `EQPT` is the case of two exactly equal points. -/
inductive HOrt | LEFT | EQPT | RIGHT
deriving DecidableEq, Repr

/-- Modelled from the spec: horizontal orientation of `p` relative to `q`. -/
def horizontal_orientation (p q : Pt) : HOrt :=
  if p.x < q.x then .LEFT
  else if q.x < p.x then .RIGHT
  else if p.y < q.y then .LEFT
  else if q.y < p.y then .RIGHT
  else .EQPT

/-- Modelled from the spec: result of the vertical-orientation predicate -
the position of a point relative to the supporting line of a segment. -/
inductive VOrt | ABOVE | BELOW | ON
deriving DecidableEq, Repr

/-- A line segment, translated from `VDLineSegment`
(vertical_decomposition.py 736-755); the underlying `LineSegment` class is
modelled from the spec: it stores two endpoints and exposes the left/right
endpoint in shear order.  `aboveFace` is the id of the DCEL face lying
directly above the segment. -/
structure Seg where
  a : Pt
  b : Pt
  aboveFace : Option Nat := none
deriving DecidableEq, Repr

instance : Inhabited Seg := ⟨⟨default, default, none⟩⟩

/-- Modelled from the spec: the left endpoint in shear order. -/
def Seg.left (s : Seg) : Pt :=
  if horizontal_orientation s.b s.a = .LEFT then s.b else s.a

/-- Modelled from the spec: the right endpoint in shear order. -/
def Seg.right (s : Seg) : Pt :=
  if horizontal_orientation s.b s.a = .LEFT then s.a else s.b

/-- Modelled from the spec: vertical orientation of a point against the
supporting line of a segment, by the sign of the cross product with the
left-to-right direction of the segment. -/
def vertical_orientation (p : Pt) (s : Seg) : VOrt :=
  let l := s.left
  let r := s.right
  let c := (r.x - l.x) * (p.y - l.y) - (r.y - l.y) * (p.x - l.x)
  if 0 < c then .ABOVE else if c < 0 then .BELOW else .ON

/-- Modelled from the spec: slope of a segment, the exact rational
rise-over-run between the left and right endpoints. -/
def Seg.slope (s : Seg) : ℚ :=
  Rat.divInt (s.right.y - s.left.y) (s.right.x - s.left.x)

/-! ## Trapezoids (`VDFace`) and the trapezoid arena -/

/-- Translated from `VDFace` (vertical_decomposition.py 623-734): a
trapezoid bounded by a top and a bottom segment and a left and a right
point, with four optional neighbour references (indices 0-3 of
`_neighbors` = upper-right, upper-left, lower-left, lower-right), and an
optional back reference to its search-structure leaf. -/
structure VDFace where
  top : Seg
  bottom : Seg
  leftP : Pt
  rightP : Pt
  searchLeaf : Option Nat
  urn : Option Nat
  uln : Option Nat
  lln : Option Nat
  lrn : Option Nat
deriving DecidableEq, Repr

instance : Inhabited VDFace :=
  ⟨⟨default, default, default, default, none, none, none, none, none⟩⟩

/-- The four neighbour slots of a trapezoid. -/
inductive Slot | ur | ul | ll | lr
deriving DecidableEq, Repr

/-- The mirror slot: upper-right pairs with upper-left, lower-left with
lower-right (see the pairwise-connection checks in
`PointLocation.check_structure`, vertical_decomposition.py 46-54). -/
def Slot.mirror : Slot → Slot
  | .ur => .ul
  | .ul => .ur
  | .ll => .lr
  | .lr => .ll

def VDFace.nbr : VDFace → Slot → Option Nat
  | f, .ur => f.urn
  | f, .ul => f.uln
  | f, .ll => f.lln
  | f, .lr => f.lrn

def VDFace.withNbr : VDFace → Slot → Option Nat → VDFace
  | f, .ur, v => { f with urn := v }
  | f, .ul, v => { f with uln := v }
  | f, .ll, v => { f with lln := v }
  | f, .lr, v => { f with lrn := v }

/-- The trapezoid arena: a total map from indices to records. -/
abbrev FaceMap := Nat → VDFace

/-- Raw write of one neighbour slot of one trapezoid. -/
def putNbr (m : FaceMap) (i : Nat) (s : Slot) (v : Option Nat) : FaceMap :=
  Function.update m i ((m i).withNbr s v)

/-- Translated from the `VDFace` neighbour property setters
(vertical_decomposition.py 695-729): write the slot, and when the new
neighbour is not `None` also write the mirror slot of the neighbour. -/
def linkNbr (m : FaceMap) (i : Nat) (s : Slot) (v : Option Nat) : FaceMap :=
  let m1 := putNbr m i s v
  match v with
  | none => m1
  | some j => putNbr m1 j s.mirror (some i)

/-- Translated from the `VDFace.neighbors` bulk setter
(vertical_decomposition.py 682-689): assigns upper-right, upper-left,
lower-left, lower-right in this order. -/
def setNeighbors (m : FaceMap) (i : Nat) (v0 v1 v2 v3 : Option Nat) : FaceMap :=
  linkNbr (linkNbr (linkNbr (linkNbr m i .ur v0) i .ul v1) i .ll v2) i .lr v3

/-! ## The vertical decomposition and its update -/

/-- The mutable state of `VerticalDecomposition`: the trapezoid arena, its
allocation size, the list of live trapezoids (`_trapezoids`) and the list
of inserted segments (`_line_segments`). -/
structure VDCore where
  m : FaceMap
  size : Nat
  live : List Nat
  segs : List Seg

/-- Translated from the neighbour walk at the start of
`VerticalDecomposition.update` (vertical_decomposition.py 158-167):
starting from the trapezoid containing the left endpoint, while the
segment extends strictly to the right of the current trapezoid's right
point, step to the upper-right neighbour when that right point is below
the segment and to the lower-right neighbour otherwise, accumulating the
visited trapezoids.  Fuel-bounded; a missing neighbour (Python
`AttributeError` on `None`) or exhausted fuel yields `none`. -/
def intersectedWalk (m : FaceMap) (ls : Seg) : Nat → Nat → Option (List Nat)
  | 0, _ => none
  | fuel + 1, cur =>
    if horizontal_orientation ls.right (m cur).rightP = .RIGHT then
      match (if vertical_orientation (m cur).rightP ls = .BELOW
             then (m cur).urn else (m cur).lrn) with
      | none => none
      | some nxt =>
        match intersectedWalk m ls fuel nxt with
        | none => none
        | some rest => some (nxt :: rest)
    else some []

/-- Translated from the single-trapezoid case of
`VerticalDecomposition.update` (vertical_decomposition.py 169-198): the
segment is completely contained in the trapezoid `F`, which is replaced by
up to four new trapezoids.  Returns the updated core together with the
list of invalidated trapezoids and the positional list
`[left, top, bottom, right]` of new trapezoids. -/
def updateSimple (c : VDCore) (ls : Seg) (F : Nat) :
    Option (VDCore × List Nat × List (Option Nat)) :=
  if F ∈ c.live then
    let R := c.m F
    let t := c.size
    let b := c.size + 1
    let m0 := Function.update c.m t ⟨R.top, ls, ls.left, ls.right, none, none, none, none, none⟩
    let m1 := Function.update m0 b ⟨ls, R.bottom, ls.left, ls.right, none, none, none, none, none⟩
    -- left remainder (lines 174-184)
    let step2 : FaceMap × Option Nat :=
      if ls.left ≠ R.leftP then
        let l := c.size + 2
        let m2 := Function.update m1 l ⟨R.top, R.bottom, R.leftP, ls.left, none, none, none, none, none⟩
        (setNeighbors m2 l (some t) R.uln R.lln (some b), some l)
      else
        (linkNbr (linkNbr m1 t .ul R.uln) b .ll R.lln, none)
    let m2 := step2.1
    let lopt := step2.2
    let rid := if lopt = none then c.size + 2 else c.size + 3
    -- right remainder (lines 185-195)
    let step3 : FaceMap × Option Nat :=
      if ls.right ≠ R.rightP then
        let m3 := Function.update m2 rid ⟨R.top, R.bottom, ls.right, R.rightP, none, none, none, none, none⟩
        (setNeighbors m3 rid R.urn (some t) (some b) R.lrn, some rid)
      else
        (linkNbr (linkNbr m2 t .ur R.urn) b .lr R.lrn, none)
    let m3 := step3.1
    let ropt := step3.2
    -- lines 196-198: remove the old trapezoid, append the non-None new ones
    let live2 := c.live.erase F ++ ([lopt, some t, some b, ropt].filterMap id)
    let newSize := c.size + 2 + (if lopt = none then 0 else 1) + (if ropt = none then 0 else 1)
    some (⟨m3, newSize, live2, c.segs⟩, [F], [lopt, some t, some b, ropt])
  else none

/-- One iteration of the merge loop of the multi-trapezoid case
(vertical_decomposition.py 255-286): the intersected trapezoid `t` is
shrunk to lie entirely above or below the segment and the trapezoid chain
on the opposite side is extended.  The accumulator carries the arena and
the current `last_face_above` / `last_face_below`. -/
def midStep (ls : Seg) (acc : FaceMap × Nat × Nat) (t : Nat) :
    Option (FaceMap × Nat × Nat) :=
  let m := acc.1
  let A := acc.2.1
  let B := acc.2.2
  match vertical_orientation (m t).leftP ls with
  | .ABOVE =>
    -- merge trapezoids below the segment (lines 259-263)
    let m1 :=
      if vertical_orientation (m t).rightP ls = .BELOW then
        linkNbr (linkNbr m B .lr (m t).lrn) B .ur
          ((linkNbr m B .lr (m t).lrn) t).urn
      else m
    let m2 := Function.update m1 B { m1 B with rightP := (m1 t).rightP }
    -- shrink `t` to lie above the segment (lines 266-268)
    let m3 := Function.update m2 t { m2 t with bottom := ls }
    let m4 := linkNbr m3 t .ll (some A)
    some (m4, t, B)
  | .BELOW =>
    -- merge trapezoids above the segment (lines 272-276)
    let m1 :=
      if vertical_orientation (m t).rightP ls = .ABOVE then
        linkNbr (linkNbr m A .lr (m t).lrn) A .ur
          ((linkNbr m A .lr (m t).lrn) t).urn
      else m
    let m2 := Function.update m1 A { m1 A with rightP := (m1 t).rightP }
    -- shrink `t` to lie below the segment (lines 279-281)
    let m3 := Function.update m2 t { m2 t with top := ls }
    let m4 := linkNbr m3 t .ul (some B)
    some (m4, A, t)
  | .ON => none   -- line 285: RuntimeError, degenerate input

/-- Lines 210-222 of `VerticalDecomposition.update`: hook the two new
half-height trapezoids `lfa` / `lfb` to the left.  If the segment starts
strictly inside the first trapezoid `F`, `F` survives (shrunk later) as
their shared left neighbour; otherwise `F` dies and the new trapezoids
inherit its left neighbours.  Returns the arena, the optional surviving
left face and the updated live list. -/
def multiLeft (live : List Nat) (ls : Seg) (F lfa lfb : Nat) (m : FaceMap) :
    Option (FaceMap × Option Nat × List Nat) :=
  if ls.left ≠ (m F).leftP then
    some (linkNbr (linkNbr m lfa .ul (some F)) lfb .ll (some F), some F, live)
  else if F ∈ live then
    some (linkNbr (linkNbr m lfa .ul (m F).uln) lfb .ll (m F).lln,
          none, live.erase F)
  else none

/-- Lines 224-229 of `VerticalDecomposition.update`: connect whichever of
the two new trapezoids continues past `F`'s right point to `F`'s old outer
right neighbour; exactly on the segment is a `RuntimeError` (line 229). -/
def multiTopBot (ls : Seg) (F lfa lfb : Nat) (u_r l_r : Option Nat)
    (m : FaceMap) : Option FaceMap :=
  match vertical_orientation (m F).rightP ls with
  | .ABOVE => some (linkNbr m lfa .ur u_r)
  | .BELOW => some (linkNbr m lfb .lr l_r)
  | .ON => none

/-- Lines 237-250 of `VerticalDecomposition.update`: hook the two new
half-height trapezoids `rfa` / `rfb` of the last intersected trapezoid
`Rp` to the right, mirroring `multiLeft`. -/
def multiRight (live1 : List Nat) (ls : Seg) (Rp rfa rfb : Nat)
    (m : FaceMap) : Option (FaceMap × Option Nat × List Nat) :=
  if ls.right ≠ (m Rp).rightP then
    let m := linkNbr m rfa .ur (some Rp)
    let m := linkNbr m rfb .lr (some Rp)
    let m := Function.update m Rp { m Rp with leftP := ls.right }
    some (m, some Rp, live1)
  else if Rp ∈ live1 then
    some (linkNbr (linkNbr m rfa .ur (m Rp).urn) rfb .lr (m Rp).lrn,
          none, live1.erase Rp)
  else none

/-- Lines 288-316 of `VerticalDecomposition.update`: merge the chain that
reaches the last trapezoid with the matching half (`rfa` above, `rfb`
below), keeping exactly one of the two; exactly on the segment is a
`RuntimeError` (line 314). -/
def multiFinal (ls : Seg) (rfa rfb A B : Nat) (u_l l_l : Option Nat)
    (m : FaceMap) : Option (FaceMap × Nat) :=
  match vertical_orientation (m rfa).leftP ls with
  | .ABOVE =>
    let m := Function.update m B { m B with rightP := ls.right }
    let m := linkNbr m B .lr (m rfb).lrn
    let m := linkNbr m B .ur none
    let m := linkNbr m A .lr (some rfa)
    let m := linkNbr m rfa .ul u_l
    some (m, rfa)
  | .BELOW =>
    let m := Function.update m A { m A with rightP := ls.right }
    let m := linkNbr m A .lr none
    let m := linkNbr m A .ur (m rfa).urn
    let m := linkNbr m B .ur (some rfb)
    let m := linkNbr m rfb .ll l_l
    some (m, rfb)
  | .ON => none

/-- Translated from the multi-trapezoid case of
`VerticalDecomposition.update` (vertical_decomposition.py 200-319).
`F` is the trapezoid containing the left endpoint, `mids` the strictly
intermediate intersected trapezoids and `Rp` the trapezoid containing the
right endpoint. -/
def updateMulti (c : VDCore) (ls : Seg) (F : Nat) (mids : List Nat) (Rp : Nat) :
    Option (VDCore × List Nat × List (Option Nat)) := do
  -- lines 204-205: retain pointers to the outer neighbours before any changes
  let u_r := (c.m F).urn
  let l_r := (c.m F).lrn
  let u_l := (c.m Rp).uln
  let l_l := (c.m Rp).lln
  -- lines 208-209: partition the first trapezoid
  let lfa := c.size
  let lfb := c.size + 1
  let rfa := c.size + 2
  let rfb := c.size + 3
  let m := Function.update c.m lfa
    ⟨(c.m F).top, ls, ls.left, (c.m F).rightP, none, none, none, none, none⟩
  let m := Function.update m lfb
    ⟨ls, (c.m F).bottom, ls.left, (c.m F).rightP, none, none, none, none, none⟩
  -- lines 210-222
  let (m, left_face, live1) ← multiLeft c.live ls F lfa lfb m
  -- lines 224-229: set the top- or bottom-most right neighbour
  let m ← multiTopBot ls F lfa lfb u_r l_r m
  -- line 231: shrink the old first trapezoid up to the left endpoint
  let m := Function.update m F { m F with rightP := ls.left }
  -- lines 235-236: partition the last trapezoid
  let m := Function.update m rfa
    ⟨(m Rp).top, ls, (m Rp).leftP, ls.right, none, none, none, none, none⟩
  let m := Function.update m rfb
    ⟨ls, (m Rp).bottom, (m Rp).leftP, ls.right, none, none, none, none, none⟩
  -- lines 237-250
  let (m, right_face, live2) ← multiRight live1 ls Rp rfa rfb m
  -- lines 253-286: merge along the segment through the intermediate trapezoids
  let (m, A, B) ← mids.foldlM (midStep ls) (m, lfa, lfb)
  -- lines 288-316: merge with the already split last trapezoid
  let (m, kept) ← multiFinal ls rfa rfb A B u_l l_l m
  -- lines 318-319
  let live3 := live2 ++ [lfa, lfb, kept]
  pure (⟨m, c.size + 4, live3, c.segs⟩,
        [F] ++ mids ++ [Rp],
        [left_face, some lfa, some lfb, some kept, right_face])

/-- Translated from `VerticalDecomposition.update`
(vertical_decomposition.py 148-319): append the segment to the segment
list, walk to collect the intersected trapezoids, then dispatch on whether
the segment is contained in a single trapezoid.  Returns the updated core,
the invalidated trapezoids and the new/changed trapezoids. -/
def VD_update (c : VDCore) (ls : Seg) (F : Nat) (fuel : Nat) :
    Option (VDCore × List Nat × List (Option Nat)) := do
  let c : VDCore := { c with segs := c.segs ++ [ls] }
  let its ← intersectedWalk c.m ls fuel F
  match its.getLast? with
  | none => updateSimple c ls F
  | some Rp => updateMulti c ls F its.dropLast Rp

/-! ## The point-location search structure -/

/-- The three node kinds of the search DAG (`VDXNode`, `VDYNode`,
`VDLeaf`, vertical_decomposition.py 409-493). -/
inductive NKind
  | xn (p : Pt)
  | yn (s : Seg)
  | lf (face : Nat)
deriving DecidableEq, Repr

/-- Translated from `VDNode`: every node has a `_left` and `_right` child
slot (a `VDYNode` exposes them as `lower` and `upper`) and a list of
parents (the structure is a DAG). -/
structure VDNode where
  kind : NKind
  l : Option Nat
  r : Option Nat
  parents : List Nat
deriving DecidableEq, Repr

instance : Inhabited VDNode := ⟨⟨.lf 0, none, none, []⟩⟩

abbrev NodeMap := Nat → VDNode

/-- Translated from the `VDNode.parent` setter
(vertical_decomposition.py 344-348): append the parent unless it is
already recorded. -/
def addParent (nm : NodeMap) (child parent : Nat) : NodeMap :=
  if parent ∈ (nm child).parents then nm
  else Function.update nm child
    { nm child with parents := (nm child).parents ++ [parent] }

/-- Translated from the `left` / `lower` child setters
(vertical_decomposition.py 420-424, 456-460). -/
def setChildL (nm : NodeMap) (p : Nat) (c : Option Nat) : NodeMap :=
  let nm1 := Function.update nm p { nm p with l := c }
  match c with
  | none => nm1
  | some c => addParent nm1 c p

/-- Translated from the `right` / `upper` child setters
(vertical_decomposition.py 430-434, 466-470). -/
def setChildR (nm : NodeMap) (p : Nat) (c : Option Nat) : NodeMap :=
  let nm1 := Function.update nm p { nm p with r := c }
  match c with
  | none => nm1
  | some c => addParent nm1 c p

/-- Error outcomes of a search-structure descent: `equalSlopes` is the
`AttributeError` raised by `VDYNode.search` when the probe segment has
exactly the slope of the stored segment (vertical_decomposition.py 483);
`broken` collapses the failure modes that cannot occur on a well-formed
structure (missing child, exhausted fuel). -/
inductive SearchErr | equalSlopes | broken
deriving DecidableEq, Repr

def probeSlopeGT : Option Seg → Seg → Bool
  | some q, s => decide (s.slope < q.slope)
  | none, _ => false

def probeSlopeLT : Option Seg → Seg → Bool
  | some q, s => decide (q.slope < s.slope)
  | none, _ => false

/-- Translated from the `search` methods of `VDXNode`, `VDYNode` and
`VDLeaf` (vertical_decomposition.py 438-442, 474-483, 492-493).  At an
x-node, strictly-left goes to the left child and everything else to the
right child.  At a y-node, above goes to the upper child; exactly on the
line with no probe segment, or with a probe of strictly larger slope,
also goes to the upper child; below, or on the line with a probe of
strictly smaller slope, goes to the lower child; otherwise (on the line
with a probe of equal slope) an error is reported. -/
def nodeSearch (nm : NodeMap) : Nat → Nat → Pt → Option Seg → Except SearchErr Nat
  | 0, _, _, _ => .error .broken
  | fuel + 1, n, p, probe =>
    match (nm n).kind with
    | .xn q =>
      if horizontal_orientation p q = .LEFT then
        match (nm n).l with
        | none => .error .broken
        | some c => nodeSearch nm fuel c p probe
      else
        match (nm n).r with
        | none => .error .broken
        | some c => nodeSearch nm fuel c p probe
    | .yn s =>
      let cr := vertical_orientation p s
      if cr = .ABOVE ∨ (cr = .ON ∧ (probe = none ∨ probeSlopeGT probe s = true)) then
        match (nm n).r with
        | none => .error .broken
        | some c => nodeSearch nm fuel c p probe
      else if cr = .BELOW ∨ (cr = .ON ∧ probeSlopeLT probe s = true) then
        match (nm n).l with
        | none => .error .broken
        | some c => nodeSearch nm fuel c p probe
      else .error .equalSlopes
    | .lf f => .ok f

/-- Translated from `VDNode.replace_with`
(vertical_decomposition.py 390-403): rewrite the matching child slot of
every parent of `old` to `new` (left first; an unmatched parent raises),
transfer the parent list wholesale, and report whether `old` had parents
(`false` signals that `old` was the root). -/
def replace_with (nm : NodeMap) (old new : Nat) : Option (NodeMap × Bool) :=
  let par := (nm old).parents
  if par = [] then some (nm, false)
  else
    match par.foldlM (fun (nm : NodeMap) p =>
        if (nm p).l = some old then
          some (Function.update nm p { nm p with l := some new })
        else if (nm p).r = some old then
          some (Function.update nm p { nm p with r := some new })
        else none) nm with
    | none => none
    | some nm1 =>
      let nm2 := Function.update nm1 new { nm1 new with parents := par }
      let nm3 := Function.update nm2 old { nm2 old with parents := [] }
      some (nm3, true)

/-- The `_face` attribute of a leaf; any other node kind is a Python
`AttributeError`. -/
def leafFace (nm : NodeMap) (n : Nat) : Option Nat :=
  match (nm n).kind with
  | .lf f => some f
  | _ => none

/-- Python index `unvalid_leafs[i-1]`: for `i = 0` the negative index
`-1` denotes the last element. -/
def prevLeaf (l : List (Option Nat)) (i : Nat) : Option Nat :=
  if i = 0 then (l.getLast?).getD none else l.getD (i - 1) none

/-- Translated from `VDSearchStructure.update`
(vertical_decomposition.py 513-620).  `fm` is the (already updated)
trapezoid arena, read for `_face` attributes; returns the new node arena,
allocation size and root. -/
def SS_update (fm : FaceMap) (nm : NodeMap) (nsize root : Nat) (ls : Seg)
    (unvalid : List (Option Nat)) (news : List (Option Nat)) :
    Option (NodeMap × Nat × Nat) :=
  match unvalid with
  | [] => none   -- pop from an empty list
  | [u0] => do
    -- single-trapezoid case (lines 515-535)
    let y := nsize
    let nm := Function.update nm y ⟨.yn ls, none, none, []⟩
    let nm := setChildR nm y (news.getD 1 none)
    let nm := setChildL nm y (news.getD 2 none)
    let (nm, ns1, tree) :=
      if news.getD 3 none ≠ none then
        let x := nsize + 1
        let nm := Function.update nm x ⟨.xn ls.right, none, none, []⟩
        let nm := setChildL nm x (some y)
        let nm := setChildR nm x (news.getD 3 none)
        (nm, nsize + 2, x)
      else (nm, nsize + 1, y)
    let (nm, ns2, tree) :=
      if news.getD 0 none ≠ none then
        let x := ns1
        let nm := Function.update nm x ⟨.xn ls.left, none, none, []⟩
        let nm := setChildL nm x (news.getD 0 none)
        let nm := setChildR nm x (some tree)
        (nm, ns1 + 1, x)
      else (nm, ns1, tree)
    let u ← u0
    let (nm, ok) ← replace_with nm u tree
    pure (nm, ns2, if ok then root else tree)
  | u0 :: rest => do
    -- multi-trapezoid case (lines 537-620)
    -- replace the leaf containing the left endpoint (lines 540-551)
    let y := nsize
    let nm := Function.update nm y ⟨.yn ls, none, none, []⟩
    let nm := setChildR nm y (news.getD 1 none)
    let nm := setChildL nm y (news.getD 2 none)
    let (nm, ns1, ltree) :=
      if news.getD 0 none ≠ none then
        let x := nsize + 1
        let nm := Function.update nm x ⟨.xn ls.left, none, none, []⟩
        let nm := setChildL nm x (news.getD 0 none)
        let nm := setChildR nm x (some y)
        (nm, nsize + 2, x)
      else (nm, nsize + 1, y)
    let u ← u0
    let (nm, _) ← replace_with nm u ltree
    let rQ ← rest.getLast?
    let midleafs := rest.dropLast
    -- intermediate leaves and the running opposite-side leaf (lines 555-596)
    let (nm, ns2, opp) ←
      if midleafs = [] then pure (nm, ns1, (none : Option Nat))
      else do
        let l0 ← midleafs.getD 0 none
        let f0 ← leafFace nm l0
        let init ←
          match vertical_orientation (fm f0).leftP ls with
          | .ABOVE => pure (news.getD 2 none, VOrt.BELOW)
          | .BELOW => pure (news.getD 1 none, VOrt.ABOVE)
          | .ON => none   -- line 565: RuntimeError
        let (nm, ns, opp, oort) ← (List.range midleafs.length).foldlM
          (fun (acc : NodeMap × Nat × Option Nat × VOrt) i => do
            let (nm, ns, opp, oort) := acc
            let li ← midleafs.getD i none
            let y := ns
            let nm := Function.update nm y ⟨.yn ls, none, none, []⟩
            let (nm, _) ← replace_with nm li y
            let fi ← leafFace nm li
            match vertical_orientation (fm fi).leftP ls with
            | .ABOVE =>
              let st := if oort = .ABOVE then (prevLeaf midleafs i, VOrt.BELOW) else (opp, oort)
              let nm := setChildR nm y (some li)
              let nm := setChildL nm y st.1
              pure (nm, ns + 1, st.1, st.2)
            | .BELOW =>
              let st := if oort = .BELOW then (prevLeaf midleafs i, VOrt.ABOVE) else (opp, oort)
              let nm := setChildR nm y st.1
              let nm := setChildL nm y (some li)
              pure (nm, ns + 1, st.1, st.2)
            | .ON => none)   -- line 589: RuntimeError
          (nm, ns1, init.1, init.2)
        -- maintain the opposite leaf one more time (lines 591-596)
        let km ← news.getD (news.length - 2) none
        let kf ← leafFace nm km
        let opp2 :=
          match vertical_orientation (fm kf).leftP ls with
          | .ABOVE => if oort = .ABOVE then (midleafs.getLast?).getD none else opp
          | .BELOW => if oort = .BELOW then (midleafs.getLast?).getD none else opp
          | .ON => opp   -- no else branch in the source: falls through
        pure (nm, ns, opp2)
    -- replace the leaf containing the right endpoint (lines 598-620)
    let y2 := ns2
    let nm := Function.update nm y2 ⟨.yn ls, none, none, []⟩
    let km ← news.getD (news.length - 2) none
    let kf ← leafFace nm km
    let nm ←
      if (fm kf).bottom = ls then
        let nm := setChildR nm y2 (some km)
        pure (setChildL nm y2 (match opp with | some o => some o | none => news.getD 2 none))
      else if (fm kf).top = ls then
        let nm := setChildL nm y2 (some km)
        pure (setChildR nm y2 (match opp with | some o => some o | none => news.getD 1 none))
      else none   -- line 613: RuntimeError
    let (nm, ns3, rtree) :=
      if (news.getLast?).getD none ≠ none then
        let x := ns2 + 1
        let nm := Function.update nm x ⟨.xn ls.right, none, none, []⟩
        let nm := setChildR nm x ((news.getLast?).getD none)
        let nm := setChildL nm x (some y2)
        (nm, ns2 + 2, x)
      else (nm, ns2 + 1, y2)
    let rq ← rQ
    let (nm, _) ← replace_with nm rq rtree
    pure (nm, ns3, root)

/-! ## The point-location facade -/

/-- The state owned by `PointLocation`: the vertical decomposition plus
the search structure (arena, allocation size, root). -/
structure PLState where
  core : VDCore
  nm : NodeMap
  nsize : Nat
  root : Nat

/-- Translated from the list comprehension in `PointLocation.insert`
(line 95) together with `VDLeaf.__init__` (lines 487-490): allocate a
fresh leaf for every non-`None` new trapezoid, setting the trapezoid's
`search_leaf` back reference. -/
def allocLeafs (fm : FaceMap) (nm : NodeMap) (ns : Nat) :
    List (Option Nat) → FaceMap × NodeMap × Nat × List (Option Nat)
  | [] => (fm, nm, ns, [])
  | none :: rest =>
    let out := allocLeafs fm nm ns rest
    (out.1, out.2.1, out.2.2.1, none :: out.2.2.2)
  | some t :: rest =>
    let nm1 := Function.update nm ns ⟨.lf t, none, none, []⟩
    let fm1 := Function.update fm t { fm t with searchLeaf := some ns }
    let out := allocLeafs fm1 nm1 (ns + 1) rest
    (out.1, out.2.1, out.2.2.1, some ns :: out.2.2.2)

/-- Translated from `PointLocation.insert`
(vertical_decomposition.py 86-96): locate the trapezoid containing the
left endpoint, update the vertical decomposition, then update the search
structure in lock step. -/
def PL_insert (st : PLState) (ls : Seg) (fuel : Nat) : Option PLState := do
  let lpf ← (nodeSearch st.nm fuel st.root ls.left (some ls)).toOption
  let (core, invalid, news) ← VD_update st.core ls lpf fuel
  let unvalidLeafs := invalid.map fun t => (core.m t).searchLeaf
  let out := allocLeafs core.m st.nm st.nsize news
  let (nm, ns, root) ← SS_update out.1 out.2.1 out.2.2.1 st.root ls unvalidLeafs out.2.2.2
  pure ⟨⟨out.1, core.size, core.live, core.segs⟩, nm, ns, root⟩

/-- Translated from `VerticalDecomposition.__init__`
(vertical_decomposition.py 119-134), `VDSearchStructure.__init__` and
`PointLocation.clear_vertical_decomposition`: the initial state over the
bounding rectangle with corners `lo` (lower left) and `hi` (upper right) -
a single trapezoid between the two sentinel segments, whose search
structure is one leaf.  The bottom sentinel's above face is the DCEL
outer face (id 0). -/
def initPL (lo hi : Pt) : PLState :=
  let top : Seg := ⟨⟨lo.x, hi.y⟩, ⟨hi.x, hi.y⟩, none⟩
  let bottom : Seg := ⟨⟨lo.x, lo.y⟩, ⟨hi.x, lo.y⟩, some 0⟩
  let f0 : VDFace := ⟨top, bottom, ⟨lo.x, hi.y⟩, ⟨hi.x, hi.y⟩, some 0, none, none, none, none⟩
  { core := { m := Function.update (fun _ => default) 0 f0, size := 1, live := [0], segs := [] },
    nm := Function.update (fun _ => default) 0 ⟨.lf 0, none, none, []⟩,
    nsize := 1,
    root := 0 }

/-- Translated from `PointLocation.build_vertical_decomposition`
(vertical_decomposition.py 109-115): non-randomized incremental
construction, inserting the segments in the given order into the cleared
initial state. -/
def PL_build (lo hi : Pt) (segs : List Seg) (fuel : Nat) : Option PLState :=
  segs.foldlM (fun st s => PL_insert st s fuel) (initPL lo hi)

/-! ## The planar subdivision (DCEL)

Translated from `dcel.py` and `objects.py` under CPython semantics.  Two
facts about the sources shape this embedding:

* `HalfEdge.incident_face` and `Face.outer_component` are declared as
  getter-only `@property` (objects.py 94-96, 120-122), yet `dcel.py`
  assigns them (lines 31, 84-85, 183, 193); in CPython assigning a
  property that has no setter raises `AttributeError`.

* `Face.is_convex` evaluates `len(self.outer_vertices)` where
  `outer_vertices` is a *method*, not a property (objects.py 175, 131),
  so `Face.contains`, and with it `find_containing_face` whenever an
  inner face exists, raises `TypeError`.

Consequently `add_vertex` can only ever return `None` (duplicate) or
raise, and `add_edge` can only ever return silently (invalid indices),
raise the line-82 `RuntimeError` (endpoints in different faces), or raise
at the line-84 property assignment; everything below line 84 is dead
code.  The embedding models each raise as a distinct outcome, paired with
the state as mutated up to the raise. -/

/-- Modelled from the spec: orientation of a point relative to the
directed line from `a` to `b` (`LEFT` = counter-clockwise side). -/
inductive Ort | LEFT | RIGHT | COLL
deriving DecidableEq, Repr

/-- Modelled from the spec: the orientation predicate
`point.orientation(a, b)` by the sign of the cross product. -/
def orientation (p a b : Pt) : Ort :=
  let c := (b.x - a.x) * (p.y - a.y) - (b.y - a.y) * (p.x - a.x)
  if 0 < c then .LEFT else if c < 0 then .RIGHT else .COLL

/-- Translated from `Vertex` (objects.py 6-48): a point and the id of the
designated half-edge. -/
structure DVertex where
  pt : Pt
  edge : Nat
deriving DecidableEq, Repr

instance : Inhabited DVertex := ⟨⟨default, 0⟩⟩

/-- Translated from `HalfEdge` (objects.py 50-111); a fresh half-edge is
its own twin, prev and next, with no incident face. -/
structure DHalfEdge where
  orig : Nat
  twin : Nat
  prev : Nat
  next : Nat
  face : Option Nat
deriving DecidableEq, Repr

instance : Inhabited DHalfEdge := ⟨⟨0, 0, 0, 0, none⟩⟩

/-- Translated from `Face` (objects.py 113-127). -/
structure DFaceRec where
  outer_component : Option Nat
  is_outer : Bool
deriving DecidableEq, Repr

instance : Inhabited DFaceRec := ⟨⟨none, false⟩⟩

/-- The state of a `DoublyConnectedEdgeList`: arenas for vertices,
half-edges and faces, the three object lists, the outer face and the
start vertex. -/
structure DCEL where
  vmap : Nat → DVertex
  vsize : Nat
  verts : List Nat
  emap : Nat → DHalfEdge
  esize : Nat
  edges : List Nat
  fmap : Nat → DFaceRec
  fsize : Nat
  faces : List Nat
  outer : Nat
  startV : Option Nat

/-- Translated from `DoublyConnectedEdgeList.clear` (dcel.py 125-132):
the empty subdivision owns just the outer face. -/
def DCEL.empty : DCEL :=
  { vmap := fun _ => default, vsize := 0, verts := []
    emap := fun _ => default, esize := 0, edges := []
    fmap := Function.update (fun _ => default) 0 ⟨none, true⟩
    fsize := 1, faces := [0], outer := 0, startV := none }

/-- `edge.destination` = `edge.twin.origin` (objects.py 70-72). -/
def dest (d : DCEL) (e : Nat) : Nat := (d.emap (d.emap e).twin).orig

/-- Translated from `inner_faces` (dcel.py 216-217). -/
def inner_faces (d : DCEL) : List Nat :=
  d.faces.filter fun f => !(d.fmap f).is_outer

/-- Translated from `find_containing_face` (dcel.py 143-147) together
with `Face.contains` (objects.py 144-172): when no inner face exists the
loop body never runs and the outer face is returned; otherwise the first
`face.contains(point)` call evaluates `len(self.outer_vertices)` on the
bound method `outer_vertices` inside `is_convex` (objects.py 175), a
`TypeError`, modelled as `none`.  The point argument is never read on the
non-raising path, which also covers the `find_containing_face(vertex_0)`
calls on dcel.py line 78-79 that pass a vertex instead of a point. -/
def find_containing_face (d : DCEL) (_p : Pt) : Option Nat :=
  if inner_faces d = [] then some d.outer else none

/-- The collection loop of `Vertex.outgoing_edges` (objects.py 16-21),
fuel-bounded. -/
def outgoingGo (d : DCEL) (e0 : Nat) : Nat → Nat → List Nat → Option (List Nat)
  | 0, _, _ => none
  | fuel + 1, e, acc =>
    if e = e0 then some acc.reverse
    else outgoingGo d e0 fuel ((d.emap (d.emap e).twin).next) (e :: acc)

/-- Translated from `Vertex.outgoing_edges` (objects.py 11-21): empty when
the designated edge points back to the vertex itself, otherwise the fan
collected by following `twin.next`. -/
def outgoing_edges (d : DCEL) (v : Nat) (fuel : Nat) : Option (List Nat) :=
  let e0 := (d.vmap v).edge
  if dest d e0 = v then some []
  else outgoingGo d e0 fuel ((d.emap (d.emap e0).twin).next) [e0]

/-- Translated from `_point_between_edge_and_next` (dcel.py 157-169). -/
def point_between_edge_and_next (d : DCEL) (p : Pt) (e : Nat) : Bool :=
  let e1 := (d.emap e).next
  if (d.emap e).twin = e1 then true
  else
    let o0 := (d.vmap (d.emap e).orig).pt
    let d0 := (d.vmap (dest d e)).pt
    let o1 := (d.vmap (d.emap e1).orig).pt
    let d1 := (d.vmap (dest d e1)).pt
    (decide (orientation p o0 d0 = .LEFT) &&
      (decide (orientation p o1 d1 = .LEFT) || decide (orientation d1 o0 d0 = .RIGHT))) ||
    (decide (orientation p o1 d1 = .LEFT) && decide (orientation o0 o1 d1 = .RIGHT))

/-- Translated from `find_splitting_face` (dcel.py 149-155).  The outer
`Option` is a raise (the explicit `Exception` for an unconnected vertex,
or a non-terminating fan walk); the inner `Option Nat` is the returned
face - Python falls through to an implicit `None` when no fan slot
matches, indistinguishable from a found face whose `incident_face` is
`None`. -/
def find_splitting_face (d : DCEL) (v : Nat) (p : Pt) (fuel : Nat) :
    Option (Option Nat) :=
  match outgoing_edges d v fuel with
  | none => none
  | some [] => none
  | some oes =>
    match oes.find? (fun e => point_between_edge_and_next d p (d.emap e).twin) with
    | some e => some ((d.emap (d.emap e).twin).face)
    | none => some none

/-- Outcomes of `add_vertex`: a duplicate point returns `None` without
mutation (dcel.py 28-29); every other call raises - `TypeError` inside
`find_containing_face` when an inner face exists, otherwise
`AttributeError` at the line-31 assignment to the getter-only property
`HalfEdge.incident_face` - before any list is mutated. -/
inductive AVOut | dup | crashed
deriving DecidableEq, Repr

/-- Translated from `DoublyConnectedEdgeList.add_vertex` (dcel.py 26-36)
under CPython semantics (see the section comment): the only non-raising
path is the duplicate check, and no raising path mutates the state. -/
def add_vertex (d : DCEL) (p : Pt) : AVOut × DCEL :=
  if p ∈ d.verts.map (fun v => (d.vmap v).pt) then (.dup, d)
  else (.crashed, d)

/-- Outcomes of `add_edge`: `ignored` = invalid indices (dcel.py 39-41);
`failedFaces` = a raise inside the face determination (lines 58-79);
`mismatch` = the line-82 `RuntimeError` for endpoints whose computed
faces differ; `attrHalt` = the line-84 `AttributeError` (assignment to
the getter-only property `HalfEdge.incident_face`), which every
successful face check runs into. -/
inductive AEOut | ignored | failedFaces | mismatch | attrHalt
deriving DecidableEq, Repr

/-- `HalfEdge(vertex)` allocation plus the `self._edges.append(...)`
on dcel.py lines 49-50 / 54-55. -/
def allocHalfEdge (d : DCEL) (v : Nat) : DCEL × Nat :=
  let e := d.esize
  ({ d with emap := Function.update d.emap e ⟨v, e, e, e, none⟩,
            esize := e + 1, edges := d.edges ++ [e] }, e)

/-- Translated from `DoublyConnectedEdgeList.add_edge` (dcel.py 38-123)
under CPython semantics.  Invalid indices are silently ignored.  For each
endpoint that is not an isolated vertex a fresh half-edge is allocated
and appended to the edge list (lines 44-55) *before* the faces are
determined.  If the two computed faces differ, line 82 raises
(`mismatch`), leaving the appended half-edges behind; if they agree,
line 84 raises at the property assignment (`attrHalt`), so the splicing
and face-splitting code of lines 88-123 is unreachable.  `add_edge_faces`
is the part of `add_edge` from the face determination (line 58) on, and
`add_edge` proper adds the index check and the half-edge allocation. -/
def add_edge_faces (d1 : DCEL) (v0 v1 : Nat) (fuel : Nat) : AEOut × DCEL :=
  match outgoing_edges d1 v0 fuel, outgoing_edges d1 v1 fuel with
  | none, _ => (.failedFaces, d1)
  | some _, none => (.failedFaces, d1)
  | some oe0, some oe1 =>
    let res : Option (Option Nat × Option Nat) :=
      if oe0.length ≠ 0 ∧ oe1.length ≠ 0 then
        match find_splitting_face d1 v0 (d1.vmap v1).pt fuel,
              find_splitting_face d1 v1 (d1.vmap v0).pt fuel with
        | some f0, some f1 => some (f0, f1)
        | _, _ => none
      else if oe0.length ≠ 0 then
        match find_splitting_face d1 v0 (d1.vmap v1).pt fuel,
              find_containing_face d1 (d1.vmap v1).pt with
        | some f0, some f1 => some (f0, some f1)
        | _, _ => none
      else if oe1.length ≠ 0 then
        match find_containing_face d1 (d1.vmap v0).pt,
              find_splitting_face d1 v1 (d1.vmap v0).pt fuel with
        | some f0, some f1 => some (some f0, f1)
        | _, _ => none
      else
        match find_containing_face d1 (d1.vmap v0).pt,
              find_containing_face d1 (d1.vmap v1).pt with
        | some f0, some f1 => some (some f0, some f1)
        | _, _ => none
    match res with
    | none => (.failedFaces, d1)
    | some (f0, f1) =>
      if f0 ≠ f1 then (.mismatch, d1) else (.attrHalt, d1)

def add_edge (d : DCEL) (i j : Nat) (fuel : Nat) : AEOut × DCEL :=
  if i ≥ d.verts.length ∨ j ≥ d.verts.length then (.ignored, d)
  else
    let v0 := d.verts.getD i 0
    let v1 := d.verts.getD j 0
    let d0 :=
      if (d.emap (d.vmap v0).edge).twin = (d.vmap v0).edge then d
      else (allocHalfEdge d v0).1
    let d1 :=
      if (d0.emap (d0.vmap v1).edge).twin = (d0.vmap v1).edge then d0
      else (allocHalfEdge d0 v1).1
    add_edge_faces d1 v0 v1 fuel

/-! ## Concrete states used by counterexamples and witnesses -/

/-- A total map holding a finite list of records. -/
def mapOfList {α : Type} [Inhabited α] (l : List α) : Nat → α :=
  fun i => l.getD i default

/-- A well-formed subdivision state: the triangle (0,0), (30,0), (15,30)
with its interior cycle on inner face 1 and its exterior cycle on the
outer face 0, plus a disconnected segment (10,5)-(20,5) strictly inside
the triangle whose two half-edges still reference the outer face (the
bookkeeping an insertion order that adds the inner segment before the
triangle closes would leave behind, as this simple DCEL never relabels
disconnected components when a face is split). -/
def triWithInner : DCEL :=
  { vmap := mapOfList
      [⟨⟨0, 0⟩, 0⟩, ⟨⟨30, 0⟩, 2⟩, ⟨⟨15, 30⟩, 4⟩, ⟨⟨10, 5⟩, 6⟩, ⟨⟨20, 5⟩, 7⟩]
    vsize := 5, verts := [0, 1, 2, 3, 4]
    emap := mapOfList
      [⟨0, 1, 4, 2, some 1⟩,   -- e0 : 0 -> 1, inner cycle
       ⟨1, 0, 3, 5, some 0⟩,   -- e1 : 1 -> 0, outer cycle
       ⟨1, 3, 0, 4, some 1⟩,   -- e2 : 1 -> 2, inner cycle
       ⟨2, 2, 5, 1, some 0⟩,   -- e3 : 2 -> 1, outer cycle
       ⟨2, 5, 2, 0, some 1⟩,   -- e4 : 2 -> 0, inner cycle
       ⟨0, 4, 1, 3, some 0⟩,   -- e5 : 0 -> 2, outer cycle
       ⟨3, 7, 7, 7, some 0⟩,   -- e6 : 3 -> 4, disconnected inner segment
       ⟨4, 6, 6, 6, some 0⟩]   -- e7 : 4 -> 3
    esize := 8, edges := [0, 1, 2, 3, 4, 5, 6, 7]
    fmap := mapOfList [⟨none, true⟩, ⟨some 0, false⟩]
    fsize := 2, faces := [0, 1], outer := 0, startV := some 0 }

/-- A subdivision state holding the path (0,0) - (10,0) - (20,10): two
undirected edges whose four half-edges form one boundary cycle on the
outer face.  Adding the edge between vertices 2 and 0 would close a
triangle. -/
def pathABC : DCEL :=
  { vmap := mapOfList [⟨⟨0, 0⟩, 0⟩, ⟨⟨10, 0⟩, 2⟩, ⟨⟨20, 10⟩, 3⟩]
    vsize := 3, verts := [0, 1, 2]
    emap := mapOfList
      [⟨0, 1, 1, 2, some 0⟩,   -- e0 : 0 -> 1
       ⟨1, 0, 3, 0, some 0⟩,   -- e1 : 1 -> 0
       ⟨1, 3, 0, 3, some 0⟩,   -- e2 : 1 -> 2
       ⟨2, 2, 2, 1, some 0⟩]   -- e3 : 2 -> 1
    esize := 4, edges := [0, 1, 2, 3]
    fmap := mapOfList [⟨none, true⟩]
    fsize := 1, faces := [0], outer := 0, startV := some 0 }

/-- A subdivision state holding one isolated vertex at (0,0). -/
def oneVertex : DCEL :=
  { vmap := mapOfList [⟨⟨0, 0⟩, 0⟩]
    vsize := 1, verts := [0]
    emap := mapOfList [⟨0, 0, 0, 0, some 0⟩]
    esize := 1, edges := [0]
    fmap := mapOfList [⟨none, true⟩]
    fsize := 1, faces := [0], outer := 0, startV := some 0 }

/-! ## Claims about the DCEL -/

theorem allocHalfEdge_obs (d : DCEL) (v : Nat) :
    ((allocHalfEdge d v).1).verts = d.verts ∧
    ((allocHalfEdge d v).1).faces = d.faces ∧
    ((allocHalfEdge d v).1).edges = d.edges ++ [d.esize] :=
  ⟨rfl, rfl, rfl⟩

/-- C1 (amended): when `add_edge` raises the different-faces error
(dcel.py line 82), the error is reported and the vertex and face lists
are unchanged, but the half-edge list is the old list extended by up to
two freshly allocated orphan half-edges - the ones appended on dcel.py
lines 49-55 before the validation - so the subdivision is not left
entirely unchanged. -/
theorem add_edge_faces_snd (d1 : DCEL) (v0 v1 fuel : Nat) :
    (add_edge_faces d1 v0 v1 fuel).2 = d1 := by
  unfold add_edge_faces
  rcases outgoing_edges d1 v0 fuel with _ | oe0 <;>
    rcases outgoing_edges d1 v1 fuel with _ | oe1 <;> try rfl
  dsimp only
  split
  · rfl
  · split <;> rfl

theorem C1_addEdge_mismatch_partial (d : DCEL) (i j fuel : Nat)
    (h : (add_edge d i j fuel).1 = .mismatch) :
    (add_edge d i j fuel).2.verts = d.verts ∧
    (add_edge d i j fuel).2.faces = d.faces ∧
    ∃ extra, (add_edge d i j fuel).2.edges = d.edges ++ extra ∧
      extra.length ≤ 2 := by
  by_cases hij : i ≥ d.verts.length ∨ j ≥ d.verts.length
  · exfalso
    rw [add_edge, if_pos hij] at h
    exact AEOut.noConfusion h
  · rw [add_edge, if_neg hij] at h ⊢
    set v0 := d.verts.getD i 0
    set v1 := d.verts.getD j 0
    set dA := if (d.emap (d.vmap v0).edge).twin = (d.vmap v0).edge then d
      else (allocHalfEdge d v0).1 with hdA
    have hA : dA.verts = d.verts ∧ dA.faces = d.faces ∧
        ∃ e1, dA.edges = d.edges ++ e1 ∧ e1.length ≤ 1 := by
      rw [hdA]; split
      · exact ⟨rfl, rfl, [], by simp, by simp⟩
      · exact ⟨rfl, rfl, [d.esize], rfl, by simp⟩
    set dB := if (dA.emap (dA.vmap v1).edge).twin = (dA.vmap v1).edge then dA
      else (allocHalfEdge dA v1).1 with hdB
    have hB : dB.verts = d.verts ∧ dB.faces = d.faces ∧
        ∃ e2, dB.edges = d.edges ++ e2 ∧ e2.length ≤ 2 := by
      obtain ⟨hv, hf, e1, he, hl⟩ := hA
      rw [hdB]; split
      · exact ⟨hv, hf, e1, he, by omega⟩
      · refine ⟨hv, hf, e1 ++ [dA.esize], ?_, ?_⟩
        · show dA.edges ++ [dA.esize] = d.edges ++ (e1 ++ [dA.esize])
          rw [he, List.append_assoc]
        · simp only [List.length_append, List.length_singleton]; omega
    rw [add_edge_faces_snd]
    exact hB

/-- C1 (counterexample): on the subdivision `triWithInner` holding a
triangle plus a disconnected interior segment, `add_edge` between the
segment endpoint (vertex 3) and the triangle corner (vertex 0) computes
two different faces and raises, yet the half-edge list has grown - the
subdivision is observably not left unchanged on the failure path. -/
theorem C1_counterexample :
    (add_edge triWithInner 3 0 50).1 = .mismatch ∧
    (add_edge triWithInner 3 0 50).2.edges ≠ triWithInner.edges := by decide

theorem C1_addEdge_mismatch_partial_witness :
    (add_edge triWithInner 3 0 50).2.verts = triWithInner.verts ∧
    (add_edge triWithInner 3 0 50).2.faces = triWithInner.faces ∧
    ∃ extra, (add_edge triWithInner 3 0 50).2.edges = triWithInner.edges ++ extra ∧
      extra.length ≤ 2 :=
  C1_addEdge_mismatch_partial triWithInner 3 0 50 (by decide)

/-- C4: the Scenario-C triangle build crashes at its very first step -
`add_vertex` on the empty subdivision raises `AttributeError` at the
assignment to the getter-only property `HalfEdge.incident_face`
(dcel.py 31, objects.py 94-96) - leaving the subdivision without
vertices, so the build can produce neither the claimed two faces nor the
Euler relation. -/
theorem C4_triangle_build_crashes :
    (add_vertex DCEL.empty ⟨0, 0⟩).1 = .crashed ∧
    (add_vertex DCEL.empty ⟨0, 0⟩).2.verts = [] ∧
    (add_vertex DCEL.empty ⟨0, 0⟩).2.faces.length = 1 := by decide

/-- C5: `add_edge` on the path subdivision `pathABC`, closing the
triangle between vertices 2 and 0, passes the same-face validation and
then raises `AttributeError` at the dcel.py line-84 assignment to the
getter-only property `HalfEdge.incident_face` - before the face-splitting
logic is ever reached - so no new `Face` is created and no half-edge is
relabeled, although the inserted edge closes a new boundary cycle. -/
theorem C5_split_unreachable :
    (add_edge pathABC 2 0 50).1 = .attrHalt ∧
    (add_edge pathABC 2 0 50).2.faces = pathABC.faces ∧
    (add_edge pathABC 2 0 50).2.faces.length = 1 := by decide

/-- C8: the duplicate path of `add_vertex` does return `None` and leave
the state untouched, but a non-duplicate `add_vertex` never succeeds: it
raises `AttributeError` at the dcel.py line-31 assignment to the
getter-only property `HalfEdge.incident_face`, so the first of the two
claimed calls already fails instead of creating the vertex. -/
theorem C8_add_vertex_dup_and_crash :
    add_vertex oneVertex ⟨0, 0⟩ = (.dup, oneVertex) ∧
    (add_vertex DCEL.empty ⟨0, 0⟩).1 = .crashed ∧
    (add_vertex DCEL.empty ⟨0, 0⟩).2.verts.length = 0 :=
  ⟨rfl, by decide, by decide⟩

/-! ## Claims about the search structure's y-node descent (C6) -/

/-- The horizontal segment (0,0)-(10,0). -/
def segC6 : Seg := ⟨⟨0, 0⟩, ⟨10, 0⟩, none⟩

/-- A one-y-node search structure: node 0 stores `segC6`, its lower child
is the leaf for trapezoid 10 and its upper child the leaf for
trapezoid 20. -/
def nmC6 : NodeMap :=
  mapOfList [⟨.yn segC6, some 1, some 2, []⟩,
             ⟨.lf 10, none, none, [0]⟩,
             ⟨.lf 20, none, none, [0]⟩]

/-- C6 (counterexample): the point (5,0) lies exactly on the stored
segment's line and no probe segment is supplied, yet the search does not
report an error - it silently descends to the upper child and returns
that leaf's trapezoid. -/
theorem C6_counterexample :
    nodeSearch nmC6 5 0 ⟨5, 0⟩ none = .ok 20 := rfl

/-- Descending into an optional child: a missing child is the broken
case, otherwise the search continues there. -/
def descend (nm : NodeMap) (fuel : Nat) (c : Option Nat) (p : Pt)
    (probe : Option Seg) : Except SearchErr Nat :=
  match c with
  | none => .error .broken
  | some c => nodeSearch nm fuel c p probe

/-- Unfolding of one search step at a y-node. -/
theorem nodeSearch_yn (nm : NodeMap) (fuel n : Nat) (p : Pt)
    (probe : Option Seg) (s : Seg) (lo hi : Option Nat) (par : List Nat)
    (hn : nm n = ⟨.yn s, lo, hi, par⟩) :
    nodeSearch nm (fuel + 1) n p probe =
      (if vertical_orientation p s = .ABOVE ∨
          (vertical_orientation p s = .ON ∧
            (probe = none ∨ probeSlopeGT probe s = true)) then
        descend nm fuel hi p probe
      else if vertical_orientation p s = .BELOW ∨
          (vertical_orientation p s = .ON ∧ probeSlopeLT probe s = true) then
        descend nm fuel lo p probe
      else .error .equalSlopes) := by
  show (match (nm n).kind with
    | NKind.xn q =>
      if horizontal_orientation p q = HOrt.LEFT then
        match (nm n).l with
        | none => Except.error SearchErr.broken
        | some c => nodeSearch nm fuel c p probe
      else
        match (nm n).r with
        | none => Except.error SearchErr.broken
        | some c => nodeSearch nm fuel c p probe
    | NKind.yn s =>
      if vertical_orientation p s = VOrt.ABOVE ∨
          (vertical_orientation p s = VOrt.ON ∧
            (probe = none ∨ probeSlopeGT probe s = true)) then
        match (nm n).r with
        | none => Except.error SearchErr.broken
        | some c => nodeSearch nm fuel c p probe
      else if vertical_orientation p s = VOrt.BELOW ∨
          (vertical_orientation p s = VOrt.ON ∧ probeSlopeLT probe s = true) then
        match (nm n).l with
        | none => Except.error SearchErr.broken
        | some c => nodeSearch nm fuel c p probe
      else .error .equalSlopes
    | NKind.lf f => Except.ok f) = _
  rw [hn]
  rfl

/-- C6 (amended): at a y-node whose comparison is exactly on the line of
the stored segment, a search without a probe segment descends to the
upper child (no error is reported); with a probe segment, a strictly
steeper probe descends to the upper child, a strictly shallower probe to
the lower child, and only exactly equal slopes report the error
(`AttributeError`, vertical_decomposition.py 483: the segment is already
in the decomposition). -/
theorem C6_ynode_on_line (nm : NodeMap) (fuel n : Nat) (p : Pt) (s : Seg)
    (lo hi : Option Nat) (par : List Nat)
    (hn : nm n = ⟨.yn s, lo, hi, par⟩)
    (hon : vertical_orientation p s = .ON) :
    (nodeSearch nm (fuel + 1) n p none = descend nm fuel hi p none) ∧
    (∀ q : Seg, s.slope < q.slope →
      nodeSearch nm (fuel + 1) n p (some q) = descend nm fuel hi p (some q)) ∧
    (∀ q : Seg, q.slope < s.slope →
      nodeSearch nm (fuel + 1) n p (some q) = descend nm fuel lo p (some q)) ∧
    (∀ q : Seg, q.slope = s.slope →
      nodeSearch nm (fuel + 1) n p (some q) = .error .equalSlopes) := by
  refine ⟨?_, ?_, ?_, ?_⟩
  · rw [nodeSearch_yn nm fuel n p none s lo hi par hn,
      if_pos (Or.inr ⟨hon, Or.inl rfl⟩)]
  · intro q hq
    rw [nodeSearch_yn nm fuel n p (some q) s lo hi par hn,
      if_pos (Or.inr ⟨hon, Or.inr
        (show probeSlopeGT (some q) s = true from decide_eq_true hq)⟩)]
  · intro q hq
    rw [nodeSearch_yn nm fuel n p (some q) s lo hi par hn, if_neg,
      if_pos (Or.inr ⟨hon,
        show probeSlopeLT (some q) s = true from decide_eq_true hq⟩)]
    rintro (hc | ⟨-, hc | hc⟩)
    · rw [hon] at hc; exact VOrt.noConfusion hc
    · exact Option.noConfusion hc
    · exact absurd (of_decide_eq_true hc) (not_lt_of_gt hq)
  · intro q hq
    rw [nodeSearch_yn nm fuel n p (some q) s lo hi par hn, if_neg, if_neg]
    · rintro (hc | ⟨-, hc⟩)
      · rw [hon] at hc; exact VOrt.noConfusion hc
      · exact absurd (of_decide_eq_true hc) (by rw [hq]; exact lt_irrefl _)
    · rintro (hc | ⟨-, hc | hc⟩)
      · rw [hon] at hc; exact VOrt.noConfusion hc
      · exact Option.noConfusion hc
      · exact absurd (of_decide_eq_true hc) (by rw [hq]; exact lt_irrefl _)

theorem C6_ynode_on_line_witness :
    nodeSearch nmC6 5 0 ⟨5, 0⟩ (some ⟨⟨0, 0⟩, ⟨10, 5⟩, none⟩) =
      descend nmC6 4 (some 2) ⟨5, 0⟩ (some ⟨⟨0, 0⟩, ⟨10, 5⟩, none⟩) :=
  (C6_ynode_on_line nmC6 4 0 ⟨5, 0⟩ segC6 (some 1) (some 2) []
    (by decide) (by decide)).2.1 ⟨⟨0, 0⟩, ⟨10, 5⟩, none⟩ (by decide)

/-! ## The rightward walk (C9) -/

/-- The rightward walk exactly as the spec words it: starting from the
trapezoid containing the left endpoint, the next trapezoid is chosen by
testing the current trapezoid's right boundary point against the new
segment's supporting line - below means follow the upper-right
neighbour, above means follow the lower-right neighbour - and the walk
stops at the first trapezoid whose right point is at or beyond the
segment's right endpoint; the derived list is the list of trapezoids the
segment crosses. -/
inductive CrossesSpec (m : FaceMap) (ls : Seg) : Nat → List Nat → Prop
  | stop : ∀ t, horizontal_orientation ls.right (m t).rightP ≠ .RIGHT →
      CrossesSpec m ls t []
  | stepBelow : ∀ t u rest,
      horizontal_orientation ls.right (m t).rightP = .RIGHT →
      vertical_orientation (m t).rightP ls = .BELOW →
      (m t).urn = some u → CrossesSpec m ls u rest →
      CrossesSpec m ls t (u :: rest)
  | stepAbove : ∀ t u rest,
      horizontal_orientation ls.right (m t).rightP = .RIGHT →
      vertical_orientation (m t).rightP ls = .ABOVE →
      (m t).lrn = some u → CrossesSpec m ls u rest →
      CrossesSpec m ls t (u :: rest)

/-- C9: the walk at the start of `VerticalDecomposition.update` computes
exactly the crossed-trapezoid list described by the spec.  Soundness
requires the non-degeneracy precondition - no tested right boundary
point lies exactly on the new segment's supporting line - because the
code's `else` branch would otherwise silently treat `ON` like `ABOVE`
(the source comments that `VORT.ON is impossible` there). -/
theorem C9_walk_matches_spec (m : FaceMap) (ls : Seg) :
    (∀ fuel t l, intersectedWalk m ls fuel t = some l →
      (∀ u ∈ t :: l, horizontal_orientation ls.right (m u).rightP = .RIGHT →
        vertical_orientation (m u).rightP ls ≠ .ON) →
      CrossesSpec m ls t l) ∧
    (∀ t l, CrossesSpec m ls t l →
      ∀ fuel, l.length < fuel → intersectedWalk m ls fuel t = some l) := by
  constructor
  · intro fuel
    induction fuel with
    | zero => intro t l h; exact Option.noConfusion h
    | succ fuel ih =>
      intro t l h hdeg
      rw [intersectedWalk] at h
      by_cases hr : horizontal_orientation ls.right (m t).rightP = .RIGHT
      · rw [if_pos hr] at h
        have htail : ∀ nxt rest, l = nxt :: rest →
            (∀ u ∈ nxt :: rest, horizontal_orientation ls.right (m u).rightP = .RIGHT →
              vertical_orientation (m u).rightP ls ≠ .ON) := by
          rintro nxt rest rfl u hu
          exact hdeg u (List.mem_cons_of_mem t hu)
        rcases hv : vertical_orientation (m t).rightP ls with _ | _ | _
        · -- ABOVE: the else branch follows the lower-right neighbour
          rw [hv, if_neg (by intro hc; exact VOrt.noConfusion hc)] at h
          rcases hn : (m t).lrn with _ | nxt
          · rw [hn] at h; exact Option.noConfusion h
          · rw [hn] at h
            dsimp only at h
            rcases hw : intersectedWalk m ls fuel nxt with _ | rest
            · rw [hw] at h; exact Option.noConfusion h
            · rw [hw] at h
              cases h
              exact CrossesSpec.stepAbove t nxt rest hr hv hn
                (ih nxt rest hw (htail nxt rest rfl))
        · -- BELOW: follow the upper-right neighbour
          rw [hv, if_pos rfl] at h
          rcases hn : (m t).urn with _ | nxt
          · rw [hn] at h; exact Option.noConfusion h
          · rw [hn] at h
            dsimp only at h
            rcases hw : intersectedWalk m ls fuel nxt with _ | rest
            · rw [hw] at h; exact Option.noConfusion h
            · rw [hw] at h
              cases h
              exact CrossesSpec.stepBelow t nxt rest hr hv hn
                (ih nxt rest hw (htail nxt rest rfl))
        · -- ON: excluded by the precondition
          exact absurd hv (hdeg t (List.mem_cons_self t l) hr)
      · rw [if_neg hr] at h
        cases h
        exact CrossesSpec.stop t hr
  · intro t l hspec
    induction hspec with
    | stop t hr =>
      intro fuel hf
      obtain ⟨fuel, rfl⟩ : ∃ f, fuel = f + 1 := ⟨fuel - 1, by omega⟩
      rw [intersectedWalk, if_neg hr]
    | stepBelow t u rest hr hv hn _ ih =>
      intro fuel hf
      obtain ⟨fuel, rfl⟩ : ∃ f, fuel = f + 1 := ⟨fuel - 1, by omega⟩
      rw [intersectedWalk, if_pos hr, hv, if_pos rfl, hn]
      dsimp only
      rw [ih fuel (by simpa using Nat.lt_of_succ_lt_succ hf)]
    | stepAbove t u rest hr hv hn _ ih =>
      intro fuel hf
      obtain ⟨fuel, rfl⟩ : ∃ f, fuel = f + 1 := ⟨fuel - 1, by omega⟩
      rw [intersectedWalk, if_pos hr, hv,
        if_neg (by intro hc; exact VOrt.noConfusion hc), hn]
      dsimp only
      rw [ih fuel (by simpa using Nat.lt_of_succ_lt_succ hf)]

/-- The top sentinel segment of the 100 x 100 bounding box. -/
def segT : Seg := ⟨⟨0, 100⟩, ⟨100, 100⟩, none⟩

/-- The bottom sentinel segment of the 100 x 100 bounding box. -/
def segBot : Seg := ⟨⟨0, 0⟩, ⟨100, 0⟩, some 0⟩

/-- The Scenario-A segment (20,20)-(80,80). -/
def segA : Seg := ⟨⟨20, 20⟩, ⟨80, 80⟩, none⟩

/-- The trapezoid arena after inserting `segA` into the empty 100 x 100
decomposition, written out literally: 0 is the retired initial
trapezoid, 1/2 the trapezoids above/below the segment, 3/4 the left and
right remainders. -/
def mC9 : FaceMap :=
  mapOfList
    [⟨segT, segBot, ⟨0, 100⟩, ⟨100, 100⟩, some 0, none, none, none, none⟩,
     ⟨segT, segA, ⟨20, 20⟩, ⟨80, 80⟩, some 2, some 4, some 3, none, none⟩,
     ⟨segA, segBot, ⟨20, 20⟩, ⟨80, 80⟩, some 3, none, none, some 3, some 4⟩,
     ⟨segT, segBot, ⟨0, 100⟩, ⟨20, 20⟩, some 1, some 1, none, none, some 2⟩,
     ⟨segT, segBot, ⟨80, 80⟩, ⟨100, 100⟩, some 4, none, some 1, some 2, none⟩]

/-- A segment crossing the left remainder, the above trapezoid and the
right remainder of `mC9`. -/
def segB : Seg := ⟨⟨10, 90⟩, ⟨90, 92⟩, none⟩

theorem C9_walk_matches_spec_witness : CrossesSpec mC9 segB 3 [1, 4] :=
  (C9_walk_matches_spec mC9 segB).1 30 3 [1, 4] (by decide) (by decide)

/-! ## The single-trapezoid case of the update (C10) -/

/-- C10: when the walk finds no further intersected trapezoid (the
segment is contained in the starting trapezoid `F`), the update
invalidates exactly `[F]` and returns exactly four positional new-
trapezoid entries `[left, above, below, right]`: the above and below
trapezoids always exist, the left entry is `none` exactly when the
segment's left endpoint equals the trapezoid's left point, and the right
entry is `none` exactly when the segment's right endpoint equals the
trapezoid's right point. -/
theorem C10_simple_case (c : VDCore) (ls : Seg) (F fuel : Nat)
    (hwalk : intersectedWalk c.m ls fuel F = some [])
    (hmem : F ∈ c.live) :
    (VD_update c ls F fuel).map (fun out => (out.2.1, out.2.2)) =
      some ([F],
        [(if ls.left = (c.m F).leftP then none else some (c.size + 2)),
         some c.size, some (c.size + 1),
         (if ls.right = (c.m F).rightP then none
          else some (if ls.left = (c.m F).leftP then c.size + 2
                     else c.size + 3))]) := by
  unfold VD_update
  dsimp only
  rw [hwalk]
  show (updateSimple { c with segs := c.segs ++ [ls] } ls F).map _ = _
  unfold updateSimple
  rw [if_pos (show F ∈ ({ c with segs := c.segs ++ [ls] } : VDCore).live from hmem)]
  by_cases hL : ls.left = (c.m F).leftP <;> by_cases hR : ls.right = (c.m F).rightP <;>
    simp [hL, hR]

/-- The Scenario-A starting core: one trapezoid spanning the 100 x 100
bounding box. -/
def coreA : VDCore := (initPL ⟨0, 0⟩ ⟨100, 100⟩).core

theorem C10_simple_case_witness :
    (VD_update coreA segA 0 30).map (fun out => (out.2.1, out.2.2)) =
      some ([0],
        [(if segA.left = (coreA.m 0).leftP then none else some (coreA.size + 2)),
         some coreA.size, some (coreA.size + 1),
         (if segA.right = (coreA.m 0).rightP then none
          else some (if segA.left = (coreA.m 0).leftP then coreA.size + 2
                     else coreA.size + 3))]) :=
  C10_simple_case coreA segA 0 30 (by decide) (by decide)

/-! ## Scenario A and the 4n + 1 trapezoid-count bound (C7) -/

/-- The decidable pairwise neighbour-consistency check over a live list:
every referenced neighbour is live and its mirror slot points back. -/
def nbrSymChk (m : FaceMap) (live : List Nat) : Bool :=
  live.all fun t =>
    [Slot.ur, .ul, .ll, .lr].all fun s =>
      match (m t).nbr s with
      | none => true
      | some u => decide (u ∈ live) && decide ((m u).nbr s.mirror = some t)

theorem erase_append_four_le (L : List Nat) (F : Nat) (hmem : F ∈ L)
    (a b : Option Nat) (t u : Nat) :
    (L.erase F ++ [a, some t, some u, b].filterMap id).length ≤ L.length + 3 := by
  have h1 := List.length_erase_of_mem hmem
  have h2 : 0 < L.length := List.length_pos_of_mem hmem
  have h3 : ([a, some t, some u, b].filterMap id).length ≤ 4 := by
    rcases a <;> rcases b <;> simp [List.filterMap]
  rw [List.length_append, h1]
  omega

theorem updateSimple_live_le (c : VDCore) (ls : Seg) (F : Nat)
    (out : VDCore × List Nat × List (Option Nat))
    (h : updateSimple c ls F = some out) :
    out.1.live.length ≤ c.live.length + 3 := by
  unfold updateSimple at h
  split at h
  · rename_i hmem
    cases h
    exact erase_append_four_le c.live F hmem _ _ _ _
  · exact Option.noConfusion h

theorem length_le_of_erase_or_eq (L M : List Nat) (x : Nat)
    (h : M = L ∨ M = L.erase x) : M.length ≤ L.length := by
  rcases h with rfl | rfl
  · exact le_refl _
  · exact (List.erase_sublist x L).length_le

theorem multiLeft_live (live : List Nat) (ls : Seg) (F lfa lfb : Nat)
    (m : FaceMap) (out : FaceMap × Option Nat × List Nat)
    (h : multiLeft live ls F lfa lfb m = some out) :
    out.2.2 = live ∨ out.2.2 = live.erase F := by
  unfold multiLeft at h
  split at h
  · cases h; exact Or.inl rfl
  · split at h
    · cases h; exact Or.inr rfl
    · exact Option.noConfusion h

theorem multiRight_live (live1 : List Nat) (ls : Seg) (Rp rfa rfb : Nat)
    (m : FaceMap) (out : FaceMap × Option Nat × List Nat)
    (h : multiRight live1 ls Rp rfa rfb m = some out) :
    out.2.2 = live1 ∨ out.2.2 = live1.erase Rp := by
  unfold multiRight at h
  split at h
  · cases h; exact Or.inl rfl
  · split at h
    · cases h; exact Or.inr rfl
    · exact Option.noConfusion h

theorem updateMulti_live_le (c : VDCore) (ls : Seg) (F : Nat)
    (mids : List Nat) (Rp : Nat)
    (out : VDCore × List Nat × List (Option Nat))
    (h : updateMulti c ls F mids Rp = some out) :
    out.1.live.length ≤ c.live.length + 3 := by
  unfold updateMulti at h
  simp only [bind, Option.bind_eq_some, Option.pure_def, Option.some.injEq] at h
  obtain ⟨⟨m1, lf1, live1⟩, h1, h⟩ := h
  obtain ⟨m2, h2, h⟩ := h
  obtain ⟨⟨m3, rf3, live2⟩, h3, h⟩ := h
  obtain ⟨⟨m4, A, B⟩, h4, h⟩ := h
  obtain ⟨⟨m5, kept⟩, h5, h⟩ := h
  have hl1 : live1 = c.live ∨ live1 = c.live.erase F :=
    multiLeft_live _ _ _ _ _ _ _ h1
  have hl2 : live2 = live1 ∨ live2 = live1.erase Rp :=
    multiRight_live _ _ _ _ _ _ _ h3
  have hle1 := length_le_of_erase_or_eq c.live live1 F hl1
  have hle2 := length_le_of_erase_or_eq live1 live2 Rp hl2
  rw [← h]
  dsimp only
  rw [List.length_append]
  simp only [List.length_cons, List.length_nil]
  omega

theorem VD_update_live_le (c : VDCore) (ls : Seg) (F fuel : Nat)
    (out : VDCore × List Nat × List (Option Nat))
    (h : VD_update c ls F fuel = some out) :
    out.1.live.length ≤ c.live.length + 3 := by
  unfold VD_update at h
  simp only [bind, Option.bind_eq_some] at h
  obtain ⟨its, hw, h⟩ := h
  rcases hgl : its.getLast? with _ | Rp <;> rw [hgl] at h <;> dsimp only at h
  · exact updateSimple_live_le { c with segs := c.segs ++ [ls] } ls F out h
  · exact updateMulti_live_le { c with segs := c.segs ++ [ls] } ls F its.dropLast Rp out h

theorem PL_insert_live_le (st : PLState) (ls : Seg) (fuel : Nat) (st' : PLState)
    (h : PL_insert st ls fuel = some st') :
    st'.core.live.length ≤ st.core.live.length + 3 := by
  unfold PL_insert at h
  simp only [bind, Option.bind_eq_some, Option.pure_def, Option.some.injEq] at h
  obtain ⟨lpf, hs, h⟩ := h
  obtain ⟨⟨core, invalid, news⟩, hu, h⟩ := h
  obtain ⟨⟨nm2, ns2, root2⟩, hss, h⟩ := h
  have hb := VD_update_live_le st.core ls lpf fuel (core, invalid, news) hu
  rw [← h]
  exact hb

theorem PL_build_aux (fuel : Nat) :
    ∀ (segs : List Seg) (st0 st : PLState),
      segs.foldlM (fun st s => PL_insert st s fuel) st0 = some st →
      st.core.live.length ≤ st0.core.live.length + 3 * segs.length := by
  intro segs
  induction segs with
  | nil =>
    intro st0 st h
    rw [List.foldlM_nil] at h
    cases h
    simp
  | cons s rest ih =>
    intro st0 st h
    rw [List.foldlM_cons] at h
    simp only [bind, Option.bind_eq_some] at h
    obtain ⟨st1, h1, h2⟩ := h
    have ha := PL_insert_live_le st0 s fuel st1 h1
    have hb := ih st1 st h2
    simp only [List.length_cons]
    omega

/-- C7: Scenario A - inserting the segment (20,20)-(80,80), both
endpoints strictly interior to the 100 x 100 bounding box, into the
initially-empty decomposition produces exactly 4 live trapezoids, all
pairwise neighbour-consistent - and in general every successful build of
`n` segments from the initial single-trapezoid state leaves at most
`4 n + 1` live trapezoids. -/
theorem C7_scenarioA_and_bound :
    ((PL_build ⟨0, 0⟩ ⟨100, 100⟩ [segA] 30).map
        (fun st => (st.core.live.length, nbrSymChk st.core.m st.core.live)) =
      some (4, true)) ∧
    ∀ (lo hi : Pt) (segs : List Seg) (fuel : Nat) (st : PLState),
      PL_build lo hi segs fuel = some st →
      st.core.live.length ≤ 4 * segs.length + 1 := by
  constructor
  · decide
  · intro lo hi segs fuel st h
    have h1 := PL_build_aux fuel segs (initPL lo hi) st h
    have h2 : (initPL lo hi).core.live.length = 1 := rfl
    omega

/-- The Scenario-A result state. -/
def stA : PLState :=
  (PL_build ⟨0, 0⟩ ⟨100, 100⟩ [segA] 30).getD (initPL ⟨0, 0⟩ ⟨100, 100⟩)

theorem C7_scenarioA_and_bound_witness :
    stA.core.live.length ≤ 4 * ([segA].length) + 1 :=
  C7_scenarioA_and_bound.2 ⟨0, 0⟩ ⟨100, 100⟩ [segA] 30 stA rfl

end GeoNb
